import Mathlib

/-!
Verification of the circular-buffer retrieval core of the `Recent` replay
memory (tensorforce/core/memories/recent.py): a shallow embedding of
`tf_retrieve_timesteps` and `tf_retrieve_episodes` over an explicit memory
state, followed by theorems about the retrieval index computations.
-/

/-- Error raised by a retrieval precondition failure (the
`tf.debugging.assert_greater_equal` assertions in the source). -/
inductive MemoryError where
  | insufficientData
deriving DecidableEq, Repr

/-- State read by the two retrieval methods of `Recent`: the fixed capacity
`self.capacity`, the monotonically increasing write cursor
`self.buffer_index`, the completed-episode counter `self.episode_count`, and
the terminal index table `self.terminal_indices` (modelled as a total
function from episode number to recorded cursor value; the source stores it
in a tensor variable assumed sufficiently large). -/
structure Memory where
  capacity : Int
  buffer_index : Int
  episode_count : Int
  terminal_indices : Int → Int

/-- Embedding of `tf.math.mod` on integer tensors: floored modulo, whose
result takes the sign of the divisor (Python semantics). `Int.fmod` is
exactly this operation. -/
def tf_mod (x y : Int) : Int :=
  Int.fmod x y

/-- Embedding of `tf.range(start, limit)` with the default delta of 1: the
integers `start, start+1, ..., limit-1`, empty when `limit ≤ start`. -/
def tf_range (start limit : Int) : List Int :=
  (List.range (limit - start).toNat).map (fun (k : Nat) => start + (k : Int))

/-- Embedding of `Recent.tf_retrieve_timesteps(self, n, past_horizon,
future_horizon)`: asserts
`min(buffer_index, capacity) - past_horizon - future_horizon >= 1`, then
returns `tf.math.mod(tf.range(buffer_index - n, buffer_index) -
future_horizon, capacity)`. -/
def tf_retrieve_timesteps (m : Memory) (n past_horizon future_horizon : Int) :
    Except MemoryError (List Int) :=
  let capacity := m.capacity
  let num_timesteps := min m.buffer_index capacity - past_horizon - future_horizon
  if 1 ≤ num_timesteps then
    Except.ok ((tf_range (m.buffer_index - n) m.buffer_index).map
      (fun i => tf_mod (i - future_horizon) capacity))
  else
    Except.error MemoryError.insufficientData

/-- Embedding of `Recent.tf_retrieve_episodes(self, n)`: asserts
`episode_count >= 1`, computes `start = terminal_indices[episode_count - n] + 1`
and `limit = terminal_indices[episode_count] + 1`, adds `capacity` to `limit`
when `limit < start`, and returns `tf.math.mod(tf.range(start, limit),
capacity)`. -/
def tf_retrieve_episodes (m : Memory) (n : Int) :
    Except MemoryError (List Int) :=
  let capacity := m.capacity
  if 1 ≤ m.episode_count then
    let start := m.terminal_indices (m.episode_count - n) + 1
    let limit := m.terminal_indices m.episode_count + 1
    let limit := limit + (if limit < start then capacity else 0)
    Except.ok ((tf_range start limit).map (fun i => tf_mod i capacity))
  else
    Except.error MemoryError.insufficientData

/-- Logical (pre-modulo) timestep indices produced inside
`tf_retrieve_timesteps`: the range `[buffer_index - n, buffer_index)` shifted
backward by `future_horizon`. -/
def timestep_logical_indices (m : Memory) (n future_horizon : Int) : List Int :=
  (tf_range (m.buffer_index - n) m.buffer_index).map (fun i => i - future_horizon)

/-- Slot indices returned by a successful `tf_retrieve_timesteps` call: the
logical indices mapped through `tf.math.mod` by `capacity`. -/
def timestep_result (m : Memory) (n future_horizon : Int) : List Int :=
  (timestep_logical_indices m n future_horizon).map (fun L => tf_mod L m.capacity)

/-- Start cursor computed inside `tf_retrieve_episodes`:
`terminal_indices[episode_count - n] + 1`. -/
def episode_start (m : Memory) (n : Int) : Int :=
  m.terminal_indices (m.episode_count - n) + 1

/-- Limit cursor computed inside `tf_retrieve_episodes`:
`terminal_indices[episode_count] + 1`, plus `capacity` when that raw value is
smaller than the start cursor. -/
def episode_limit (m : Memory) (n : Int) : Int :=
  let limit := m.terminal_indices m.episode_count + 1
  limit + (if limit < episode_start m n then m.capacity else 0)

/-- Logical (pre-modulo) indices produced inside `tf_retrieve_episodes`:
the range `[episode_start, episode_limit)`. -/
def episode_logical_indices (m : Memory) (n : Int) : List Int :=
  tf_range (episode_start m n) (episode_limit m n)

/-- Slot indices returned by a successful `tf_retrieve_episodes` call. -/
def episode_result (m : Memory) (n : Int) : List Int :=
  (episode_logical_indices m n).map (fun L => tf_mod L m.capacity)

/-- Valid-data window of logical indices: the most recent
`min(buffer_index, capacity)` writes, i.e. logical indices in
`[buffer_index - min(buffer_index, capacity), buffer_index)`. -/
def within_valid_window (m : Memory) (l : List Int) : Prop :=
  ∀ L ∈ l, m.buffer_index - min m.buffer_index m.capacity ≤ L ∧ L < m.buffer_index

instance (m : Memory) (l : List Int) : Decidable (within_valid_window m l) :=
  inferInstanceAs (Decidable (∀ L ∈ l, _ ∧ _))

/-- Horizon validity of a list of logical indices: each index has at least
`past_horizon` prior writes still in the buffer and `future_horizon`
subsequent writes already recorded. -/
def horizon_valid (m : Memory) (past_horizon future_horizon : Int) (l : List Int) : Prop :=
  ∀ L ∈ l, max 0 (m.buffer_index - m.capacity) ≤ L - past_horizon ∧
    L + future_horizon < m.buffer_index

instance (m : Memory) (p f : Int) (l : List Int) : Decidable (horizon_valid m p f l) :=
  inferInstanceAs (Decidable (∀ L ∈ l, _ ∧ _))

/-- State-passing form of `tf_retrieve_timesteps`: the method reads
`buffer_index` and `capacity` but contains no variable assignment, so the
resulting state is the input state. -/
def retrieve_timesteps_call (m : Memory) (n past_horizon future_horizon : Int) :
    Except MemoryError (List Int) × Memory :=
  (tf_retrieve_timesteps m n past_horizon future_horizon, m)

/-- State-passing form of `tf_retrieve_episodes`: the method reads
`episode_count`, `terminal_indices` and `capacity` but contains no variable
assignment, so the resulting state is the input state. -/
def retrieve_episodes_call (m : Memory) (n : Int) :
    Except MemoryError (List Int) × Memory :=
  (tf_retrieve_episodes m n, m)

/-- Concrete memory: capacity 10, cursor 2, no completed episode. -/
def memA : Memory := ⟨10, 2, 0, fun _ => 0⟩

/-- Concrete memory: capacity 20, cursor 16, three completed episodes whose
terminals were recorded in the terminal index table at cursor values 4, 9
and 15. -/
def memB : Memory := ⟨20, 16, 3, fun i => if i = 3 then 15 else if i = 2 then 9 else 4⟩

/-- Concrete memory: capacity 3, cursor 10, no completed episode. -/
def memC : Memory := ⟨3, 10, 0, fun _ => 0⟩

/-- Concrete memory: capacity 10, cursor 6, no completed episode. -/
def memD : Memory := ⟨10, 6, 0, fun _ => 0⟩

theorem tf_mod_eq_emod (x : Int) {y : Int} (hy : 0 ≤ y) : tf_mod x y = x % y :=
  Int.fmod_eq_emod x hy

theorem retrieve_timesteps_ok (m : Memory) (n p f : Int)
    (h : 1 ≤ min m.buffer_index m.capacity - p - f) :
    tf_retrieve_timesteps m n p f = Except.ok (timestep_result m n f) := by
  simp only [tf_retrieve_timesteps, timestep_result, timestep_logical_indices, List.map_map,
    if_pos h]
  rfl

theorem retrieve_timesteps_err (m : Memory) (n p f : Int)
    (h : min m.buffer_index m.capacity - p - f < 1) :
    tf_retrieve_timesteps m n p f = Except.error MemoryError.insufficientData := by
  simp only [tf_retrieve_timesteps, if_neg (by omega : ¬ 1 ≤ min m.buffer_index m.capacity - p - f)]

theorem retrieve_episodes_ok (m : Memory) (n : Int) (h : 1 ≤ m.episode_count) :
    tf_retrieve_episodes m n = Except.ok (episode_result m n) := by
  simp only [tf_retrieve_episodes, episode_result, episode_logical_indices, episode_start,
    episode_limit, if_pos h]

theorem retrieve_episodes_err (m : Memory) (n : Int) (h : m.episode_count < 1) :
    tf_retrieve_episodes m n = Except.error MemoryError.insufficientData := by
  simp only [tf_retrieve_episodes, if_neg (by omega : ¬ 1 ≤ m.episode_count)]

theorem timestep_result_range_form (m : Memory) (n f : Int) :
    timestep_result m n f = (List.range n.toNat).map
      (fun (k : Nat) => tf_mod (m.buffer_index - n + (k : Int) - f) m.capacity) := by
  have hn : m.buffer_index - (m.buffer_index - n) = n := by ring
  simp only [timestep_result, timestep_logical_indices, tf_range, List.map_map, hn]
  rfl

theorem timestep_logical_range_form (m : Memory) (n f : Int) :
    timestep_logical_indices m n f = (List.range n.toNat).map
      (fun (k : Nat) => m.buffer_index - n + (k : Int) - f) := by
  have hn : m.buffer_index - (m.buffer_index - n) = n := by ring
  simp only [timestep_logical_indices, tf_range, List.map_map, hn]
  rfl

/-- Concrete memory: capacity 10, cursor 20, one completed episode, all
terminal table entries 0. -/
def memE : Memory := ⟨10, 20, 1, fun _ => 0⟩

/-- C1: retrieve_timesteps(n, past_horizon, future_horizon) fails exactly when
min(buffer_index, capacity) - past_horizon - future_horizon < 1; otherwise,
for every n > 0, it returns exactly n slot indices, namely the contiguous
logical range [buffer_index - n, buffer_index) shifted backward by
future_horizon and mapped to physical slots by true modulo with respect to
capacity, in order oldest first (position k holds the slot of logical index
buffer_index - n + k - future_horizon). -/
theorem retrieve_timesteps_gate_and_range (m : Memory) (n p f : Int) (hn : 0 < n) :
    (tf_retrieve_timesteps m n p f = Except.error MemoryError.insufficientData ↔
      min m.buffer_index m.capacity - p - f < 1) ∧
    (1 ≤ min m.buffer_index m.capacity - p - f →
      tf_retrieve_timesteps m n p f = Except.ok (timestep_result m n f) ∧
      ((timestep_result m n f).length : Int) = n ∧
      timestep_result m n f = (List.range n.toNat).map
        (fun (k : Nat) => tf_mod (m.buffer_index - n + (k : Int) - f) m.capacity)) := by
  have hlen : ((timestep_result m n f).length : Int) = n := by
    rw [timestep_result_range_form]
    simp only [List.length_map, List.length_range]
    omega
  constructor
  · constructor
    · intro herr
      by_contra hge
      rw [retrieve_timesteps_ok m n p f (by omega)] at herr
      exact absurd herr (by simp)
    · intro hlt
      exact retrieve_timesteps_err m n p f hlt
  · intro hge
    exact ⟨retrieve_timesteps_ok m n p f hge, hlen, timestep_result_range_form m n f⟩

/-- Witness for C1 at a concrete memory (capacity 10, cursor 6) with n = 2. -/
theorem retrieve_timesteps_gate_and_range_witness :
    0 < (2:Int) ∧ 1 ≤ min memD.buffer_index memD.capacity - 0 - 0 ∧
    tf_retrieve_timesteps memD 2 0 0 = Except.ok (timestep_result memD 2 0) ∧
    ((timestep_result memD 2 0).length : Int) = 2 :=
  ⟨by decide, by decide,
    ((retrieve_timesteps_gate_and_range memD 2 0 0 (by decide)).2 (by decide)).1,
    ((retrieve_timesteps_gate_and_range memD 2 0 0 (by decide)).2 (by decide)).2.1⟩

/-- C2: for every n > 0 with episode_count >= 1 (the terminal index table is
modelled as a total non-wrapping function), retrieve_episodes(n) computes
start = terminal_index_table[episode_count - n] + 1 and
limit = terminal_index_table[episode_count] + 1, adds capacity to limit if
limit < start as raw integers, and returns the logical indices of
[start, limit) each mapped to a physical slot via true modulo, in
chronological order oldest first (position k holds the slot of logical index
start + k). -/
theorem retrieve_episodes_start_limit (m : Memory) (n : Int) (_hn : 0 < n)
    (hec : 1 ≤ m.episode_count) :
    tf_retrieve_episodes m n = Except.ok (episode_result m n) ∧
    episode_start m n = m.terminal_indices (m.episode_count - n) + 1 ∧
    episode_limit m n = m.terminal_indices m.episode_count + 1 +
      (if m.terminal_indices m.episode_count + 1 <
        m.terminal_indices (m.episode_count - n) + 1 then m.capacity else 0) ∧
    episode_result m n = (List.range (episode_limit m n - episode_start m n).toNat).map
      (fun (k : Nat) => tf_mod (episode_start m n + (k : Int)) m.capacity) := by
  refine ⟨retrieve_episodes_ok m n hec, rfl, rfl, ?_⟩
  simp only [episode_result, episode_logical_indices, tf_range, List.map_map]
  rfl

/-- Witness for C2 at a concrete memory with three completed episodes. -/
theorem retrieve_episodes_start_limit_witness :
    0 < (1:Int) ∧ 1 ≤ memB.episode_count ∧
    tf_retrieve_episodes memB 1 = Except.ok (episode_result memB 1) ∧
    episode_result memB 1 = (List.range (episode_limit memB 1 - episode_start memB 1).toNat).map
      (fun (k : Nat) => tf_mod (episode_start memB 1 + (k : Int)) memB.capacity) :=
  ⟨by decide, by decide, (retrieve_episodes_start_limit memB 1 (by decide) (by decide)).1,
    (retrieve_episodes_start_limit memB 1 (by decide) (by decide)).2.2.2⟩

/-- Counterexample for C3: with capacity 10 and cursor 2, only 2 qualifying
timesteps exist, yet retrieve_timesteps(5, 0, 0) succeeds and returns 5
indices; with one completed episode, retrieve_episodes(3) succeeds (returning
an empty list) instead of failing. -/
theorem insufficient_data_check_cex :
    (min memA.buffer_index memA.capacity - 0 - 0 < 5 ∧
      tf_retrieve_timesteps memA 5 0 0 = Except.ok [7, 8, 9, 0, 1]) ∧
    (memE.episode_count < 3 ∧ tf_retrieve_episodes memE 3 = Except.ok []) :=
  ⟨⟨by decide, rfl⟩, ⟨by decide, rfl⟩⟩

/-- C3 (amended): each retrieval raises InsufficientDataError exactly when its
aggregate availability check fails — retrieve_timesteps when
min(buffer_index, capacity) - past_horizon - future_horizon < 1 and
retrieve_episodes when episode_count < 1; neither validates the requested n
against the data, and on success retrieve_timesteps returns exactly n items
(never fewer than requested). -/
theorem retrieve_error_conditions (m : Memory) (n p f ne : Int) (hn : 0 < n) :
    (tf_retrieve_timesteps m n p f = Except.error MemoryError.insufficientData ↔
      min m.buffer_index m.capacity - p - f < 1) ∧
    (tf_retrieve_episodes m ne = Except.error MemoryError.insufficientData ↔
      m.episode_count < 1) ∧
    (1 ≤ min m.buffer_index m.capacity - p - f →
      tf_retrieve_timesteps m n p f = Except.ok (timestep_result m n f) ∧
      ((timestep_result m n f).length : Int) = n) := by
  refine ⟨⟨fun herr => ?_, retrieve_timesteps_err m n p f⟩,
    ⟨fun herr => ?_, retrieve_episodes_err m ne⟩,
    fun hge => ⟨retrieve_timesteps_ok m n p f hge, ?_⟩⟩
  · by_contra hge
    rw [retrieve_timesteps_ok m n p f (by omega)] at herr
    exact absurd herr (by simp)
  · by_contra hge
    rw [retrieve_episodes_ok m ne (by omega)] at herr
    exact absurd herr (by simp)
  · rw [timestep_result_range_form]
    simp only [List.length_map, List.length_range]
    omega

/-- Witness for the amended C3 at a concrete memory with no completed
episode and 6 recorded timesteps. -/
theorem retrieve_error_conditions_witness :
    0 < (2:Int) ∧
    tf_retrieve_episodes memD 1 = Except.error MemoryError.insufficientData ∧
    tf_retrieve_timesteps memD 2 0 0 = Except.ok (timestep_result memD 2 0) :=
  ⟨by decide, (retrieve_error_conditions memD 2 0 0 1 (by decide)).2.1.mpr (by decide),
    ((retrieve_error_conditions memD 2 0 0 1 (by decide)).2.2 (by decide)).1⟩

/-- Counterexample for C4: with capacity 10 and cursor 2,
retrieve_timesteps(5, 0, 0) succeeds although logical index -3 is among the
returned window and has fewer than 0 prior writes recorded;
the aggregate availability check alone does not enforce the per-index
horizon bounds. -/
theorem horizon_check_aggregate_only_cex :
    tf_retrieve_timesteps memA 5 0 0 = Except.ok (timestep_result memA 5 0) ∧
    (-3 : Int) ∈ timestep_logical_indices memA 5 0 ∧
    ¬ horizon_valid memA 0 0 (timestep_logical_indices memA 5 0) :=
  ⟨rfl, by decide, by decide⟩

/-- C4 (amended): whenever retrieve_timesteps succeeds and additionally
n + past_horizon + future_horizon <= min(buffer_index, capacity), every one of
the n returned slot indices corresponds to a logical timestep L with
L - past_horizon >= max(0, buffer_index - capacity) and
L + future_horizon < buffer_index. -/
theorem timestep_horizon_bounds (m : Memory) (n p f : Int) (hn : 0 < n)
    (h : n + p + f ≤ min m.buffer_index m.capacity) :
    tf_retrieve_timesteps m n p f = Except.ok (timestep_result m n f) ∧
    horizon_valid m p f (timestep_logical_indices m n f) := by
  refine ⟨retrieve_timesteps_ok m n p f (by omega), fun L hL => ?_⟩
  rw [timestep_logical_range_form] at hL
  simp only [List.mem_map, List.mem_range] at hL
  obtain ⟨k, hk, rfl⟩ := hL
  omega

/-- Witness for the amended C4 with n = 2 and both horizons 1 on a memory
holding 6 timesteps. -/
theorem timestep_horizon_bounds_witness :
    0 < (2:Int) ∧ (2:Int) + 1 + 1 ≤ min memD.buffer_index memD.capacity ∧
    (tf_retrieve_timesteps memD 2 1 1 = Except.ok (timestep_result memD 2 1) ∧
      horizon_valid memD 1 1 (timestep_logical_indices memD 2 1)) :=
  ⟨by decide, by decide, timestep_horizon_bounds memD 2 1 1 (by decide) (by decide)⟩

/-- Counterexample for C5: with capacity 10 and cursor 2,
retrieve_timesteps(5, 0, 0) succeeds but returns slots for logical index -3,
which lies outside the valid data window [0, 2). -/
theorem valid_window_violation_cex :
    tf_retrieve_timesteps memA 5 0 0 = Except.ok (timestep_result memA 5 0) ∧
    (-3 : Int) ∈ timestep_logical_indices memA 5 0 ∧
    ¬ within_valid_window memA (timestep_logical_indices memA 5 0) :=
  ⟨rfl, by decide, by decide⟩

/-- C5 (amended): returned slots correspond to logical indices inside the
valid data window [buffer_index - min(buffer_index, capacity), buffer_index)
provided, for retrieve_timesteps, that n + future_horizon <=
min(buffer_index, capacity) and future_horizon >= 0, and, for
retrieve_episodes, that the episode span [start, limit) itself lies within
the window; without these extra conditions the retrievers can return stale
or not-yet-written slots (see the counterexample). -/
theorem retrievals_within_window (m : Memory) (n p f ne : Int) :
    (1 ≤ min m.buffer_index m.capacity - p - f → n + f ≤ min m.buffer_index m.capacity →
      0 ≤ f →
      tf_retrieve_timesteps m n p f = Except.ok (timestep_result m n f) ∧
      within_valid_window m (timestep_logical_indices m n f)) ∧
    (1 ≤ m.episode_count →
      m.buffer_index - min m.buffer_index m.capacity ≤ episode_start m ne →
      episode_limit m ne ≤ m.buffer_index →
      tf_retrieve_episodes m ne = Except.ok (episode_result m ne) ∧
      within_valid_window m (episode_logical_indices m ne)) := by
  constructor
  · intro hav hnf hf
    refine ⟨retrieve_timesteps_ok m n p f hav, fun L hL => ?_⟩
    rw [timestep_logical_range_form] at hL
    simp only [List.mem_map, List.mem_range] at hL
    obtain ⟨k, hk, rfl⟩ := hL
    omega
  · intro hec hlo hhi
    refine ⟨retrieve_episodes_ok m ne hec, fun L hL => ?_⟩
    simp only [episode_logical_indices, tf_range, List.mem_map, List.mem_range] at hL
    obtain ⟨k, hk, rfl⟩ := hL
    omega

/-- Witness for the amended C5 on the three-episode memory, for both
retrieval operations. -/
theorem retrievals_within_window_witness :
    (tf_retrieve_timesteps memB 2 0 1 = Except.ok (timestep_result memB 2 1) ∧
      within_valid_window memB (timestep_logical_indices memB 2 1)) ∧
    (tf_retrieve_episodes memB 1 = Except.ok (episode_result memB 1) ∧
      within_valid_window memB (episode_logical_indices memB 1)) :=
  ⟨(retrievals_within_window memB 2 0 1 1).1 (by decide) (by decide) (by decide),
    (retrievals_within_window memB 2 0 1 1).2 (by decide) (by decide) (by decide)⟩

/-- C6: if episodes 1, 2, 3 have their terminals recorded in the terminal
index table at cursor values 4, 9, 15 respectively, then retrieve_episodes(1)
right after episode 3 terminates returns the slot indices of the logical
range [10, 16) — the 6 timesteps strictly after episode 2's terminal through
and including episode 3's terminal. -/
theorem retrieve_episodes_boundary_example (m : Memory) (hec : m.episode_count = 3)
    (h2 : m.terminal_indices 2 = 9) (h3 : m.terminal_indices 3 = 15) :
    tf_retrieve_episodes m 1 =
      Except.ok ((tf_range 10 16).map (fun L => tf_mod L m.capacity)) ∧
    tf_range 10 16 = [10, 11, 12, 13, 14, 15] := by
  constructor
  · have h1 : (1:Int) ≤ m.episode_count := by rw [hec]; norm_num
    rw [retrieve_episodes_ok m 1 h1]
    have hs : episode_start m 1 = 10 := by
      rw [episode_start, hec]
      norm_num [h2]
    have hl : episode_limit m 1 = 16 := by
      rw [episode_limit, hec, h3, hs]
      norm_num
    rw [episode_result, episode_logical_indices, hs, hl]
  · rfl

/-- Witness for C6 at the concrete three-episode memory of capacity 20. -/
theorem retrieve_episodes_boundary_example_witness :
    memB.episode_count = 3 ∧ memB.terminal_indices 2 = 9 ∧ memB.terminal_indices 3 = 15 ∧
    (tf_retrieve_episodes memB 1 =
      Except.ok ((tf_range 10 16).map (fun L => tf_mod L memB.capacity)) ∧
     tf_range 10 16 = [10, 11, 12, 13, 14, 15]) :=
  ⟨rfl, by decide, by decide,
    retrieve_episodes_boundary_example memB rfl (by decide) (by decide)⟩

/-- C7: the logical-to-physical slot mapping is true (non-truncating) modulo:
for every capacity C > 0 and every integer i (including negative), the mapped
slot lies in [0, C) and is the unique value in that range congruent to i
modulo C. -/
theorem tf_mod_true_modulo (C i v : Int) (hC : 0 < C) (hv : 0 ≤ v) (hvC : v < C)
    (hcong : (i - v) % C = 0) :
    0 ≤ tf_mod i C ∧ tf_mod i C < C ∧ (i - tf_mod i C) % C = 0 ∧ v = tf_mod i C := by
  have he : tf_mod i C = i % C := tf_mod_eq_emod i hC.le
  refine ⟨?_, ?_, ?_, ?_⟩
  · rw [he]; exact Int.emod_nonneg i (by omega)
  · rw [he]; exact Int.emod_lt_of_pos i hC
  · rw [he, Int.sub_emod, Int.emod_emod_of_dvd i dvd_rfl, sub_self, Int.zero_emod]
  · rw [he]
    have h1 : i % C = v % C := Int.emod_eq_emod_iff_emod_sub_eq_zero.mpr hcong
    rw [h1, Int.emod_eq_of_lt hv hvC]

/-- Witness for C7 at capacity 5 and negative logical index -3, whose unique
in-range representative is 2. -/
theorem tf_mod_true_modulo_witness :
    0 < (5:Int) ∧ 0 ≤ (2:Int) ∧ (2:Int) < 5 ∧ ((-3:Int) - 2) % 5 = 0 ∧
    (0 ≤ tf_mod (-3) 5 ∧ tf_mod (-3) 5 < 5 ∧ ((-3:Int) - tf_mod (-3) 5) % 5 = 0 ∧
      (2:Int) = tf_mod (-3) 5) :=
  ⟨by decide, by decide, by decide, by decide,
    tf_mod_true_modulo 5 (-3) 2 (by decide) (by decide) (by decide) (by decide)⟩

/-- C8: both retrieval operations are pure queries — in state-passing form
neither modifies the memory state (buffer_index, episode_count, terminal
index table or records), and calling the same retrieval twice with identical
arguments and no intervening append yields identical results. -/
theorem retrievals_pure (m : Memory) (n p f ne : Int) :
    (retrieve_timesteps_call m n p f).2 = m ∧
    (retrieve_episodes_call m ne).2 = m ∧
    (retrieve_timesteps_call (retrieve_timesteps_call m n p f).2 n p f).1 =
      (retrieve_timesteps_call m n p f).1 ∧
    (retrieve_episodes_call (retrieve_episodes_call m ne).2 ne).1 =
      (retrieve_episodes_call m ne).1 :=
  ⟨rfl, rfl, rfl, rfl⟩

theorem timestep_result_repeats (m : Memory) (n f : Int) (hcap : 0 < m.capacity)
    (hbig : m.capacity < n) : ¬ (timestep_result m n f).Nodup := by
  rw [timestep_result_range_form]
  intro hnd
  have h0 : 0 < ((List.range n.toNat).map
      (fun (k : Nat) => tf_mod (m.buffer_index - n + (k : Int) - f) m.capacity)).length := by
    simp only [List.length_map, List.length_range]; omega
  have h1 : m.capacity.toNat < ((List.range n.toNat).map
      (fun (k : Nat) => tf_mod (m.buffer_index - n + (k : Int) - f) m.capacity)).length := by
    simp only [List.length_map, List.length_range]; omega
  have hval : ((List.range n.toNat).map
      (fun (k : Nat) => tf_mod (m.buffer_index - n + (k : Int) - f) m.capacity))[0] =
      ((List.range n.toNat).map
      (fun (k : Nat) => tf_mod (m.buffer_index - n + (k : Int) - f) m.capacity))[m.capacity.toNat] := by
    simp only [List.getElem_map, List.getElem_range]
    rw [tf_mod_eq_emod _ hcap.le, tf_mod_eq_emod _ hcap.le, Int.toNat_of_nonneg hcap.le]
    have hx : m.buffer_index - n + (m.capacity : Int) - f =
        m.buffer_index - n + ((0:Nat) : Int) - f + m.capacity * 1 := by push_cast; ring
    rw [hx, Int.add_mul_emod_self_left]
  have h01 := hnd.getElem_inj_iff.mp hval
  omega

/-- C9: retrieve_timesteps never validates n against the available data — for
every n > 0 (with positive capacity), whenever
min(buffer_index, capacity) - past_horizon - future_horizon >= 1 the call
succeeds and returns exactly n slot indices even when n exceeds
min(buffer_index, capacity); in particular, when n > capacity the returned
sequence necessarily contains at least one physical slot index more than
once. -/
theorem retrieve_timesteps_no_n_validation (m : Memory) (n p f : Int) (hn : 0 < n)
    (hcap : 0 < m.capacity) (hav : 1 ≤ min m.buffer_index m.capacity - p - f) :
    tf_retrieve_timesteps m n p f = Except.ok (timestep_result m n f) ∧
    ((timestep_result m n f).length : Int) = n ∧
    (m.capacity < n → ¬ (timestep_result m n f).Nodup) :=
  ⟨retrieve_timesteps_ok m n p f hav,
   by rw [timestep_result_range_form]; simp only [List.length_map, List.length_range]; omega,
   fun hbig => timestep_result_repeats m n f hcap hbig⟩

/-- Witness for C9 at a memory of capacity 3 with cursor 10 and n = 5 > 3:
the call succeeds and the returned slots repeat. -/
theorem retrieve_timesteps_no_n_validation_witness :
    0 < (5:Int) ∧ 0 < memC.capacity ∧ 1 ≤ min memC.buffer_index memC.capacity - 0 - 0 ∧
    tf_retrieve_timesteps memC 5 0 0 = Except.ok (timestep_result memC 5 0) ∧
    ¬ (timestep_result memC 5 0).Nodup :=
  ⟨by decide, by decide, by decide,
    (retrieve_timesteps_no_n_validation memC 5 0 0 (by decide) (by decide) (by decide)).1,
    (retrieve_timesteps_no_n_validation memC 5 0 0 (by decide) (by decide) (by decide)).2.2
      (by decide)⟩

/-- C10: the returned indices of retrieve_timesteps do not depend on
past_horizon — two calls differing only in past_horizon that both pass the
availability check return identical index sequences. -/
theorem retrieve_timesteps_past_horizon_independent (m : Memory) (n p1 p2 f : Int)
    (h1 : 1 ≤ min m.buffer_index m.capacity - p1 - f)
    (h2 : 1 ≤ min m.buffer_index m.capacity - p2 - f) :
    tf_retrieve_timesteps m n p1 f = tf_retrieve_timesteps m n p2 f := by
  rw [retrieve_timesteps_ok m n p1 f h1, retrieve_timesteps_ok m n p2 f h2]

/-- Witness for C10: past horizons 0 and 2 on a memory with 6 recorded
timesteps give the same result. -/
theorem retrieve_timesteps_past_horizon_independent_witness :
    1 ≤ min memD.buffer_index memD.capacity - 0 - 0 ∧
    1 ≤ min memD.buffer_index memD.capacity - 2 - 0 ∧
    tf_retrieve_timesteps memD 3 0 0 = tf_retrieve_timesteps memD 3 2 0 :=
  ⟨by decide, by decide,
    retrieve_timesteps_past_horizon_independent memD 3 0 2 0 (by decide) (by decide)⟩
